import Mathlib

/-!
Shallow embedding of the `fetch-nodeshim` repository: the body extractor
(`src/body.ts`), the content decoder (`encoding.ts`), and the fetch
orchestrator (`src/fetch.ts`), with theorems settling the frozen claims.

JS strings are modelled as Lean `String`; `TextEncoder.encode` and
`Buffer.byteLength` (both UTF-8) are modelled by `utf8Bytes`/`byteLength`
below. Byte buffers (`Uint8Array`, stream chunks) are `List Nat`.
Randomness (`randomBytes(8)`) is passed in explicitly as a list of bytes.
-/

namespace FetchNodeShim

/-- UTF-8 encoding of one code point, as `TextEncoder` emits it. -/
def charUtf8Bytes (c : Char) : List Nat :=
  let n := c.toNat
  if n < 128 then [n]
  else if n < 2048 then [192 + n / 64, 128 + n % 64]
  else if n < 65536 then [224 + n / 4096, 128 + (n / 64) % 64, 128 + n % 64]
  else [240 + n / 262144, 128 + (n / 4096) % 64, 128 + (n / 64) % 64, 128 + n % 64]

/-- The byte sequence `TextEncoder.encode(s)` produces. -/
def utf8Bytes (s : String) : List Nat :=
  (s.data.map charUtf8Bytes).flatten

/-- `Buffer.byteLength(s)` (UTF-8 byte count of a JS string). -/
def byteLength (s : String) : Nat :=
  (utf8Bytes s).length

theorem utf8Bytes_append (s t : String) :
    utf8Bytes (s ++ t) = utf8Bytes s ++ utf8Bytes t := by
  cases s with
  | mk a =>
    cases t with
    | mk b =>
      show ((a ++ b).map charUtf8Bytes).flatten = _
      rw [List.map_append, List.flatten_append]
      rfl

theorem byteLength_append (s t : String) :
    byteLength (s ++ t) = byteLength s + byteLength t := by
  unfold byteLength
  rw [utf8Bytes_append, List.length_append]

/-- `s.toLowerCase()` (ASCII case mapping, as header names use). -/
def jsToLower (s : String) : String :=
  String.mk (s.data.map Char.toLower)

/-- `s.toUpperCase()` (ASCII case mapping, as HTTP methods use). -/
def jsToUpper (s : String) : String :=
  String.mk (s.data.map Char.toUpper)

/-! ## The standards `Headers` container (host collaborator)

Header names are case-insensitive; the model stores names lowercased.
Entry order is unobservable in WHATWG `Headers` (iteration sorts), so
`set` is modelled as remove-then-add. -/

structure Headers where
  entries : List (String × String)
deriving Repr, DecidableEq

def Headers.empty : Headers := ⟨[]⟩

/-- `headers.get(name)`: case-insensitive lookup. -/
def Headers.get (h : Headers) (name : String) : Option String :=
  (h.entries.find? (fun e => e.1 == jsToLower name)).map Prod.snd

/-- `headers.has(name)`. -/
def Headers.hasName (h : Headers) (name : String) : Bool :=
  (h.get name).isSome

/-- `headers.set(name, value)`: replace any entry with that name. -/
def Headers.set (h : Headers) (name value : String) : Headers :=
  ⟨h.entries.filter (fun e => e.1 != jsToLower name) ++ [(jsToLower name, value)]⟩

/-- `headers.delete(name)`. -/
def Headers.del (h : Headers) (name : String) : Headers :=
  ⟨h.entries.filter (fun e => e.1 != jsToLower name)⟩

/-- `headers.append(name, value)`: combine with an existing value. -/
def Headers.append (h : Headers) (name value : String) : Headers :=
  match h.get name with
  | some old => h.set name (old ++ ", " ++ value)
  | none => h.set name value

/-- `new Headers(pairs)`: fill by appending each pair in order. -/
def Headers.ofList (l : List (String × String)) : Headers :=
  l.foldl (fun h kv => h.append kv.1 kv.2) Headers.empty

theorem Headers.find?_filter_ne (l : List (String × String)) (a b : String)
    (hab : a ≠ b) :
    (l.filter (fun e => e.1 != a)).find? (fun e => e.1 == b) =
      l.find? (fun e => e.1 == b) := by
  induction l with
  | nil => rfl
  | cons e rest ih =>
    rw [List.filter_cons]
    by_cases hea : e.1 = a
    · have hpe : (e.1 == b) = false := by
        rw [beq_eq_false_iff_ne, hea]
        exact hab
      rw [if_neg (by simp [hea]), List.find?_cons_of_neg _ (by simp [hpe])]
      exact ih
    · rw [if_pos (by simp [hea])]
      by_cases hpb : e.1 = b
      · rw [List.find?_cons_of_pos _ (by simp [hpb]),
          List.find?_cons_of_pos _ (by simp [hpb])]
      · rw [List.find?_cons_of_neg _ (by simp [hpb]),
          List.find?_cons_of_neg _ (by simp [hpb])]
        exact ih

theorem Headers.find?_filter_self (l : List (String × String)) (a : String) :
    (l.filter (fun e => e.1 != a)).find? (fun e => e.1 == a) = none := by
  rw [List.find?_eq_none]
  intro x hx
  have := List.of_mem_filter hx
  simp only [bne_iff_ne, ne_eq, decide_eq_true_eq] at this
  simp [this]

/-- How `get` reads a header after `set`: the set name gets the new value,
every other name is untouched. -/
theorem Headers.get_set (h : Headers) (name value other : String) :
    (h.set name value).get other =
      if jsToLower other = jsToLower name then some value else h.get other := by
  unfold Headers.get Headers.set
  simp only [List.find?_append]
  by_cases heq : jsToLower other = jsToLower name
  · rw [heq, Headers.find?_filter_self]
    rw [List.find?_cons_of_pos _ (by simp)]
    simp [heq]
  · rw [Headers.find?_filter_ne _ _ _ (fun hc => heq hc.symm)]
    rw [List.find?_cons_of_neg _ (by simp; exact fun hc => heq hc.symm)]
    cases hf : h.entries.find? (fun e => e.1 == jsToLower other) with
    | some v => simp [heq]
    | none => simp [heq]

theorem Headers.get_del (h : Headers) (name other : String) :
    (h.del name).get other =
      if jsToLower other = jsToLower name then none else h.get other := by
  unfold Headers.get Headers.del
  by_cases heq : jsToLower other = jsToLower name
  · rw [heq]
    simp [Headers.find?_filter_self, heq]
  · rw [Headers.find?_filter_ne _ _ _ (fun hc => heq hc.symm)]
    simp [heq]

/-! ## Header adapter (`headersOfRawHeaders`, src/fetch.ts lines 14-19)

The Node engine reports raw headers as a flat list `[k0, v0, k1, v1, ...]`;
the adapter walks it two at a time calling `headers.set`. On a trailing
odd key JS reads `rawHeaders[i+1]` as `undefined`, which the `Headers`
setter stringifies to `"undefined"`. -/

def headersOfRawHeadersGo (h : Headers) : List String → Headers
  | [] => h
  | [k] => h.set k "undefined"
  | k :: v :: rest => headersOfRawHeadersGo (h.set k v) rest

def headersOfRawHeaders (rawHeaders : List String) : Headers :=
  headersOfRawHeadersGo Headers.empty rawHeaders

/-- The value of the last occurrence (case-insensitive) of `key` in a raw
header list, mirroring the flat pair layout. -/
def lastRawValue (key : String) : List String → Option String
  | [] => none
  | [k] => if jsToLower k = jsToLower key then some "undefined" else none
  | k :: v :: rest =>
    match lastRawValue key rest with
    | some w => some w
    | none => if jsToLower k = jsToLower key then some v else none

theorem headersOfRawHeadersGo_get (raw : List String) (h : Headers)
    (key : String) :
    (headersOfRawHeadersGo h raw).get key =
      match lastRawValue key raw with
      | some w => some w
      | none => h.get key := by
  induction h, raw using headersOfRawHeadersGo.induct with
  | case1 h => rfl
  | case2 h k =>
    simp only [headersOfRawHeadersGo, lastRawValue, Headers.get_set]
    by_cases heq : jsToLower key = jsToLower k
    · simp [heq]
    · have : ¬ jsToLower k = jsToLower key := fun hc => heq hc.symm
      simp [heq, this]
  | case3 h k v rest ih =>
    simp only [headersOfRawHeadersGo, lastRawValue, ih]
    cases hw : lastRawValue key rest with
    | some w => simp
    | none =>
      simp only [Headers.get_set]
      by_cases heq : jsToLower key = jsToLower k
      · simp [heq]
      · have : ¬ jsToLower k = jsToLower key := fun hc => heq hc.symm
        simp [heq, this]

/-- C10 — For every raw header list containing the same key more than once
(case-insensitively), the `Headers` container built from it maps that key to
the value of the key's last occurrence; earlier values are discarded. Proved
in the strong form: for every raw list and every key, lookup returns exactly
the last occurrence's value (or nothing when the key never occurs). -/
theorem headersOfRawHeaders_last_occurrence_wins (raw : List String)
    (key : String) :
    (headersOfRawHeaders raw).get key = lastRawValue key raw := by
  unfold headersOfRawHeaders
  rw [headersOfRawHeadersGo_get]
  cases hw : lastRawValue key raw with
  | some w => rfl
  | none => rfl

/-! ## Body extractor (src/body.ts)

A `FormData` entry value is a string or a blob/file; a blob carries its
reported `size` and the chunk sequence its `stream()` yields (they can
disagree: `size` is whatever the object reports). The capability probes of
the source (`isBlob`, `isFormData`, ...) become constructors of a sum type,
first-match-wins order collapsing into the one constructor each input has. -/

inductive FormValue where
  | str (s : String)
  | blob (fileName : Option String) (blobType : String) (size : Nat)
      (chunks : List (List Nat))
deriving Repr, DecidableEq

abbrev FormEntry := String × FormValue

/-- The polymorphic `BodyInit` input of `extractBody`, one constructor per
branch of the source's classification. `urlForm` carries the string its
`URLSearchParams.toString()` renders; `unknown` carries the default
stringification `${object}` of an unrecognized value. -/
inductive BodyInput where
  | str (s : String)
  | urlForm (rendered : String)
  | blob (blobType : String) (size : Nat) (chunks : List (List Nat))
  | uint8 (bs : List Nat)
  | arrayBuffer (bs : List Nat)
  | arrayView (bs : List Nat)
  | readableStream (chunks : List (List Nat))
  | formData (entries : List FormEntry)
  | multipartStream (boundary : String) (knows : Bool) (knownLength : Nat)
      (chunks : List (List Nat))
  | readable (chunks : List (List Nat))
  | iterable (chunks : List (List Nat))
  | unknown (stringified : String)
deriving Repr, DecidableEq

/-- The `body` field of a `BodyState`: a one-shot `Uint8Array` or a stream
of byte chunks (`Readable` / `ReadableStream`). -/
inductive BodySrc where
  | bytes (bs : List Nat)
  | stream (chunks : List (List Nat))
deriving Repr, DecidableEq

structure BodyState where
  contentLength : Option Nat
  contentType : Option String
  body : Option BodySrc
deriving Repr, DecidableEq

def CRLF : String := "\r\n"
def CRLF_LENGTH : Nat := 2
def BOUNDARY : String := "--"

/-- `formdata-` followed by `randomBytes(8).toString('hex')`; the eight
random bytes are the `entropy` argument. -/
def hexDigitChar (n : Nat) : Char :=
  if n < 10 then Char.ofNat (48 + n) else Char.ofNat (87 + n)

def bytesToHexChars (bs : List Nat) : List Char :=
  (bs.map (fun b => [hexDigitChar (b / 16), hexDigitChar (b % 16)])).flatten

def makeFormBoundary (entropy : List Nat) : String :=
  "formdata-" ++ String.mk (bytesToHexChars entropy)

/-- `getFormHeader` of src/body.ts: the per-entry multipart header block. -/
def getFormHeader (boundary name : String) (field : FormValue) : String :=
  let header := BOUNDARY ++ boundary ++ CRLF ++
    "Content-Disposition: form-data; name=\"" ++ name ++ "\""
  let header := match field with
    | .blob fileName blobType _ _ =>
      header ++ "; filename=\"" ++ fileName.getD "blob" ++ "\"" ++ CRLF ++
        "Content-Type: " ++
        (if blobType = "" then "application/octet-stream" else blobType)
    | .str _ => header
  header ++ CRLF ++ CRLF

def getFormFooter (boundary : String) : String :=
  BOUNDARY ++ boundary ++ BOUNDARY ++ CRLF ++ CRLF

/-- `getFormDataLength`: footer length plus, per entry, header length plus
value length (a blob's reported `size`, a string's byte length) plus CRLF. -/
def getFormDataLength (form : List FormEntry) (boundary : String) : Nat :=
  form.foldl
    (fun length e =>
      length + byteLength (getFormHeader boundary e.1 e.2) +
        (match e.2 with
          | .blob _ _ size _ => size
          | .str s => byteLength s) +
        CRLF_LENGTH)
    (byteLength (getFormFooter boundary))

/-- `generatorOfFormData` as the chunk sequence the async generator yields:
per entry either one encoded chunk (header + string value + CRLF) or the
encoded header, the blob's own chunks, and an encoded CRLF; then the
encoded footer. -/
def generatorOfFormData (form : List FormEntry) (boundary : String) :
    List (List Nat) :=
  (form.map (fun e =>
    match e.2 with
    | .blob _ _ _ chunks =>
      [utf8Bytes (getFormHeader boundary e.1 e.2)] ++ chunks ++
        [utf8Bytes CRLF]
    | .str s =>
      [utf8Bytes (getFormHeader boundary e.1 e.2 ++ s ++ CRLF)])).flatten ++
  [utf8Bytes (getFormFooter boundary)]

/-- Total bytes a chunk sequence emits over its lifetime. -/
def streamBytes (chunks : List (List Nat)) : Nat :=
  (chunks.map List.length).sum

/-- Bytes the `body` field of a `BodyState` would send. -/
def bodyBytes : Option BodySrc → Nat
  | none => 0
  | some (.bytes bs) => bs.length
  | some (.stream cs) => streamBytes cs

/-- `extractBody` of src/body.ts. `entropy` stands for the eight random
bytes `makeFormBoundary` draws in the `FormData` branch. A blob's falsy
(empty) `type` becomes no content type, exactly as `object.type || null`. -/
def extractBody (entropy : List Nat) : Option BodyInput → BodyState
  | none =>
    { contentLength := some 0, contentType := none, body := none }
  | some (.str s) =>
    { contentLength := some (byteLength s),
      contentType := some "text/plain;charset=UTF-8",
      body := some (.bytes (utf8Bytes s)) }
  | some (.urlForm rendered) =>
    { contentLength := some (byteLength rendered),
      contentType := some "application/x-www-form-urlencoded;charset=UTF-8",
      body := some (.bytes (utf8Bytes rendered)) }
  | some (.blob blobType size chunks) =>
    { contentLength := some size,
      contentType := if blobType = "" then none else some blobType,
      body := some (.stream chunks) }
  | some (.uint8 bs) =>
    { contentLength := some bs.length, contentType := none,
      body := some (.bytes bs) }
  | some (.arrayBuffer bs) =>
    { contentLength := some bs.length, contentType := none,
      body := some (.bytes bs) }
  | some (.arrayView bs) =>
    { contentLength := some bs.length, contentType := none,
      body := some (.bytes bs) }
  | some (.readableStream chunks) =>
    { contentLength := none, contentType := none,
      body := some (.stream chunks) }
  | some (.formData entries) =>
    let boundary := makeFormBoundary entropy
    { contentLength := some (getFormDataLength entries boundary),
      contentType := some ("multipart/form-data; boundary=" ++ boundary),
      body := some (.stream (generatorOfFormData entries boundary)) }
  | some (.multipartStream boundary knows knownLength chunks) =>
    { contentLength := if knows then some knownLength else none,
      contentType := some ("multipart/form-data; boundary=" ++ boundary),
      body := some (.stream chunks) }
  | some (.readable chunks) =>
    { contentLength := none, contentType := none,
      body := some (.stream chunks) }
  | some (.iterable chunks) =>
    { contentLength := none, contentType := none,
      body := some (.stream chunks) }
  | some (.unknown stringified) =>
    { contentLength := some (byteLength stringified),
      contentType := some "text/plain;charset=UTF-8",
      body := some (.bytes (utf8Bytes stringified)) }

/-! ## Multipart length exactness and boundary shape (claim C8) -/

/-- A blob entry reports an accurate size when `size` equals the bytes its
stream yields; string entries are always accurate. -/
def FormValue.sizeAccurate : FormValue → Prop
  | .str _ => True
  | .blob _ _ size chunks => size = streamBytes chunks

def isLowerHexDigit (c : Char) : Bool :=
  (decide ('0' ≤ c) && decide (c ≤ '9')) ||
  (decide ('a' ≤ c) && decide (c ≤ 'f'))

/-- The regular expression `formdata-[0-9a-f]\x7b16\x7d` as a predicate. -/
def matchesFormBoundaryPattern (s : String) : Bool :=
  (s.data.take 9 == "formdata-".data) &&
  ((s.data.drop 9).length == 16) &&
  (s.data.drop 9).all isLowerHexDigit

theorem streamBytes_append (a b : List (List Nat)) :
    streamBytes (a ++ b) = streamBytes a + streamBytes b := by
  unfold streamBytes
  rw [List.map_append, List.sum_append]

theorem streamBytes_flatten (ls : List (List (List Nat))) :
    streamBytes ls.flatten = (ls.map streamBytes).sum := by
  induction ls with
  | nil => rfl
  | cons x rest ih =>
    rw [List.flatten_cons, streamBytes_append, List.map_cons, List.sum_cons, ih]

theorem byteLength_CRLF : byteLength CRLF = 2 := by decide

/-- The per-entry byte count `getFormDataLength` charges. -/
def entryWireSize (boundary : String) (e : FormEntry) : Nat :=
  byteLength (getFormHeader boundary e.1 e.2) +
    (match e.2 with
      | .blob _ _ size _ => size
      | .str s => byteLength s) +
    CRLF_LENGTH

theorem foldl_formLen (boundary : String) (form : List FormEntry)
    (init : Nat) :
    form.foldl
      (fun length e =>
        length + byteLength (getFormHeader boundary e.1 e.2) +
          (match e.2 with
            | .blob _ _ size _ => size
            | .str s => byteLength s) +
          CRLF_LENGTH)
      init = init + (form.map (entryWireSize boundary)).sum := by
  induction form generalizing init with
  | nil => simp
  | cons e rest ih =>
    rw [List.foldl_cons, ih, List.map_cons, List.sum_cons]
    unfold entryWireSize
    omega

theorem getFormDataLength_eq_sum (form : List FormEntry) (boundary : String) :
    getFormDataLength form boundary =
      byteLength (getFormFooter boundary) +
        (form.map (entryWireSize boundary)).sum := by
  unfold getFormDataLength
  exact foldl_formLen boundary form _

/-- The chunks the generator yields for one entry. -/
def entryChunks (boundary : String) (e : FormEntry) : List (List Nat) :=
  match e.2 with
  | .blob _ _ _ chunks =>
    [utf8Bytes (getFormHeader boundary e.1 e.2)] ++ chunks ++ [utf8Bytes CRLF]
  | .str s => [utf8Bytes (getFormHeader boundary e.1 e.2 ++ s ++ CRLF)]

theorem generatorOfFormData_eq (form : List FormEntry) (boundary : String) :
    generatorOfFormData form boundary =
      (form.map (entryChunks boundary)).flatten ++
        [utf8Bytes (getFormFooter boundary)] := by
  rfl

theorem entryChunks_bytes (boundary : String) (e : FormEntry)
    (hacc : FormValue.sizeAccurate e.2) :
    streamBytes (entryChunks boundary e) = entryWireSize boundary e := by
  cases hv : e.2 with
  | str s =>
    unfold entryChunks entryWireSize
    rw [hv]
    simp only [streamBytes, List.map_cons, List.map_nil, List.sum_cons,
      List.sum_nil]
    show byteLength (getFormHeader boundary e.1 (FormValue.str s) ++ s ++ CRLF) + 0 = _
    rw [byteLength_append, byteLength_append, byteLength_CRLF]
    rfl
  | blob fileName blobType size chunks =>
    have hacc2 : size = streamBytes chunks := by
      unfold FormValue.sizeAccurate at hacc
      rw [hv] at hacc
      exact hacc
    unfold entryChunks entryWireSize
    rw [hv]
    rw [streamBytes_append, streamBytes_append]
    have h1 : streamBytes
        [utf8Bytes (getFormHeader boundary e.1
          (FormValue.blob fileName blobType size chunks))] =
        byteLength (getFormHeader boundary e.1
          (FormValue.blob fileName blobType size chunks)) := by
      simp [streamBytes, byteLength]
    have h2 : streamBytes [utf8Bytes CRLF] = CRLF_LENGTH := by
      have : streamBytes [utf8Bytes CRLF] = byteLength CRLF := by
        simp [streamBytes, byteLength]
      rw [this, byteLength_CRLF]
      rfl
    rw [h1, h2, hacc2]

theorem hexDigitChar_isLowerHex (n : Nat) (h : n < 16) :
    isLowerHexDigit (hexDigitChar n) = true := by
  interval_cases n <;> decide

theorem bytesToHexChars_cons (b : Nat) (rest : List Nat) :
    bytesToHexChars (b :: rest) =
      hexDigitChar (b / 16) :: hexDigitChar (b % 16) :: bytesToHexChars rest := by
  rfl

theorem bytesToHexChars_length (bs : List Nat) :
    (bytesToHexChars bs).length = 2 * bs.length := by
  induction bs with
  | nil => rfl
  | cons b rest ih =>
    rw [bytesToHexChars_cons]
    simp only [List.length_cons, ih]
    omega

theorem bytesToHexChars_all_hex (bs : List Nat) (h : ∀ b ∈ bs, b < 256) :
    (bytesToHexChars bs).all isLowerHexDigit = true := by
  induction bs with
  | nil => rfl
  | cons b rest ih =>
    have hb : b < 256 := h b (by simp)
    have h1 : b / 16 < 16 := by omega
    have h2 : b % 16 < 16 := by omega
    rw [bytesToHexChars_cons]
    simp only [List.all_cons, hexDigitChar_isLowerHex _ h1,
      hexDigitChar_isLowerHex _ h2, Bool.true_and]
    exact ih (fun x hx => h x (by simp [hx]))

theorem makeFormBoundary_data (entropy : List Nat) :
    (makeFormBoundary entropy).data =
      "formdata-".data ++ bytesToHexChars entropy := by
  rfl

theorem matchesFormBoundaryPattern_of_entropy (entropy : List Nat)
    (hlen : entropy.length = 8) (hbytes : ∀ b ∈ entropy, b < 256) :
    matchesFormBoundaryPattern (makeFormBoundary entropy) = true := by
  unfold matchesFormBoundaryPattern
  rw [makeFormBoundary_data]
  rw [List.take_left' (by rfl), List.drop_left' (by rfl)]
  rw [bytesToHexChars_length, hlen]
  rw [bytesToHexChars_all_hex entropy hbytes]
  simp

/-- C8 — For every FormData body whose blob entries report accurate sizes,
the precomputed contentLength equals the exact number of bytes the multipart
stream emits over its lifetime (per entry: header block + value bytes +
CRLF, plus the footer), and the generated boundary matches
`formdata-[0-9a-f]\x7b16\x7d`. -/
theorem formData_contentLength_exact (form : List FormEntry)
    (entropy : List Nat)
    (hacc : ∀ e ∈ form, FormValue.sizeAccurate e.2)
    (hlen : entropy.length = 8) (hbytes : ∀ b ∈ entropy, b < 256) :
    streamBytes (generatorOfFormData form (makeFormBoundary entropy)) =
      getFormDataLength form (makeFormBoundary entropy) ∧
    matchesFormBoundaryPattern (makeFormBoundary entropy) = true := by
  constructor
  · rw [generatorOfFormData_eq, streamBytes_append, streamBytes_flatten,
      getFormDataLength_eq_sum]
    have hmap : form.map (streamBytes ∘ entryChunks (makeFormBoundary entropy)) =
        form.map (entryWireSize (makeFormBoundary entropy)) := by
      apply List.map_congr_left
      intro e he
      exact entryChunks_bytes _ e (hacc e he)
    rw [List.map_map, hmap]
    have hfoot : streamBytes
        [utf8Bytes (getFormFooter (makeFormBoundary entropy))] =
        byteLength (getFormFooter (makeFormBoundary entropy)) := by
      simp [streamBytes, byteLength]
    rw [hfoot]
    omega
  · exact matchesFormBoundaryPattern_of_entropy entropy hlen hbytes

/-- C8 witness: a concrete two-entry form (one string, one accurately sized
blob) and concrete entropy. -/
theorem formData_contentLength_exact_witness :
    streamBytes (generatorOfFormData
        [("a", FormValue.str "1"),
         ("f", FormValue.blob (some "f.bin") "application/octet-stream" 3
            [[104, 105], [33]])]
        (makeFormBoundary [0, 17, 34, 51, 68, 85, 254, 255])) =
      getFormDataLength
        [("a", FormValue.str "1"),
         ("f", FormValue.blob (some "f.bin") "application/octet-stream" 3
            [[104, 105], [33]])]
        (makeFormBoundary [0, 17, 34, 51, 68, 85, 254, 255]) ∧
    matchesFormBoundaryPattern
      (makeFormBoundary [0, 17, 34, 51, 68, 85, 254, 255]) = true :=
  formData_contentLength_exact _ _
    (by intro e he; fin_cases he <;> simp [FormValue.sizeAccurate, streamBytes])
    (by decide) (by decide)

/-! ## Body-state invariant (claim C9) -/

/-- C9 counterexample — the claimed biconditional `stream == null ⇔
contentLength ∈ (0, null) and no bytes to send` fails on the empty string:
`extractBody("")` has contentLength 0 and zero bytes to send, yet its body
is a (non-null) empty `Uint8Array`. -/
theorem extractBody_empty_string_breaks_iff :
    ¬ (((extractBody [] (some (.str ""))).body = none) ↔
      (((extractBody [] (some (.str ""))).contentLength = some 0 ∨
          (extractBody [] (some (.str ""))).contentLength = none) ∧
        bodyBytes (extractBody [] (some (.str ""))).body = 0)) := by
  decide

/-- C9 amended — `stream == null` exactly when the body input is null, and
then contentLength is 0 and there are no bytes to send; a non-null body may
nonetheless carry zero bytes (the empty string), so the converse of the
original biconditional fails. -/
theorem extractBody_null_stream_invariant (entropy : List Nat)
    (input : Option BodyInput) :
    ((extractBody entropy input).body = none ↔ input = none) ∧
    ((extractBody entropy input).body = none →
      (extractBody entropy input).contentLength = some 0 ∧
      bodyBytes (extractBody entropy input).body = 0) := by
  cases input with
  | none => simp [extractBody, bodyBytes]
  | some b => cases b <;> simp [extractBody]

/-! ## URL/method/redirect validation (src/fetch.ts lines 33-86) -/

/-- `methodToHttpOption`: the switch matches the literal strings `CONNECT`,
`TRACE`, `TRACK` before any uppercasing; the default arm uppercases a
truthy method and turns a missing or empty (falsy) one into `GET`. -/
def methodToHttpOption : Option String → Except String String
  | some m =>
    if m = "CONNECT" ∨ m = "TRACE" ∨ m = "TRACK" then
      .error ("Failed to construct 'Request': '" ++ m ++
        "' HTTP method is unsupported.")
    else if m = "" then .ok "GET"
    else .ok (jsToUpper m)
  | none => .ok "GET"

/-- `toRedirectOption` of src/fetch.ts. -/
def toRedirectOption : Option String → Except String String
  | some "follow" => .ok "follow"
  | some "manual" => .ok "manual"
  | some "error" => .ok "error"
  | none => .ok "follow"
  | some other =>
    .error ("Request constructor: " ++ other ++
      " is not an accepted type. Expected one of follow, manual, error.")

/-- `isRedirectCode` of src/fetch.ts. -/
def isRedirectCode (code : Nat) : Bool :=
  code == 301 || code == 302 || code == 303 || code == 307 || code == 308

def MAX_REDIRECTS : Nat := 20

/-! ## Fetch argument resolution (src/fetch.ts lines 106-133)

`isRequest` probes for a `body` property; a Request input is the `request`
constructor here. The standard `Request` always carries concrete `url`,
`method`, `redirect` and `headers`; `body` and `signal` may be null.
`RequestInitObj` models the plain `init` dictionary with every field
optional. Header initializers are pair lists. -/

structure SignalRef where
  id : Nat
deriving Repr, DecidableEq

structure RequestObj where
  url : String
  body : Option BodyInput
  signal : Option SignalRef
  redirect : String
  method : String
  headers : List (String × String)
deriving Repr, DecidableEq

structure RequestInitObj where
  method : Option String
  headers : Option (List (String × String))
  body : Option BodyInput
  signal : Option SignalRef
  redirect : Option String
deriving Repr, DecidableEq

inductive FetchInput where
  | url (u : String)
  | request (r : RequestObj)
deriving Repr, DecidableEq

/-- JS truthiness of a body value, for `requestInit?.body || null`: the
empty string is falsy, every other body input is an object and truthy. -/
def jsTruthyBody : BodyInput → Bool
  | .str s => s != ""
  | _ => true

structure ResolvedInit where
  initUrl : String
  initBody : Option BodyInput
  signal : Option SignalRef
  redirect : Except String String
  method : Except String String
  headersInit : Option (List (String × String))
deriving Repr

/-- The prologue of `_fetch`: which argument each request parameter is
read from. When the input is a Request, `url`, `body`, `signal`,
`redirect` and `method` come from the Request (the init dictionary is not
consulted), while `new Headers(requestInit?.headers || input.headers)`
prefers the init headers wholesale. -/
def resolveFetchInit (input : FetchInput) (requestInit : Option RequestInitObj) :
    ResolvedInit :=
  { initUrl :=
      match input with
      | .request r => r.url
      | .url u => u,
    initBody :=
      match input with
      | .request r => r.body
      | .url _ =>
        match requestInit.bind RequestInitObj.body with
        | some b => if jsTruthyBody b then some b else none
        | none => none,
    signal :=
      match input with
      | .request r => r.signal
      | .url _ => requestInit.bind RequestInitObj.signal,
    redirect := toRedirectOption
      (match input with
        | .request r => some r.redirect
        | .url _ => requestInit.bind RequestInitObj.redirect),
    method := methodToHttpOption
      (match input with
        | .request r => some r.method
        | .url _ => requestInit.bind RequestInitObj.method),
    headersInit :=
      match requestInit.bind RequestInitObj.headers with
      | some hs => some hs
      | none =>
        match input with
        | .request r => some r.headers
        | .url _ => none }

/-! ## Request header finalization (src/fetch.ts lines 234-242) -/

def setAcceptHeader (h : Headers) : Headers :=
  if h.hasName "Accept" then h else h.set "Accept" "*/*"

/-- `if (requestBody.contentType) requestHeaders.set('Content-Type', ...)`:
a truthy body content type is written unconditionally with `set`. -/
def setContentTypeHeader (h : Headers) (b : BodyState) : Headers :=
  match b.contentType with
  | some t => if t = "" then h else h.set "Content-Type" t
  | none => h

def setContentLengthHeader (h : Headers) (b : BodyState) (method : String) :
    Headers :=
  if b.body = none ∧ (method = "POST" ∨ method = "PUT") then
    h.set "Content-Length" "0"
  else
    match b.body, b.contentLength with
    | some _, some n => h.set "Content-Length" (toString n)
    | _, _ => h

def finalizeRequestHeaders (requestHeaders : Headers) (requestBody : BodyState)
    (method : String) : Headers :=
  setContentLengthHeader
    (setContentTypeHeader (setAcceptHeader requestHeaders) requestBody)
    requestBody method

/-! ## Redirect handling (src/fetch.ts lines 143-202) -/

structure LocURL where
  protocol : String
  href : String
deriving Repr, DecidableEq

structure CallState where
  method : String
  requestBody : BodyState
  requestHeaders : Headers
  originalBody : Option BodyInput
  redirects : Nat
  requestUrl : String
deriving Repr, DecidableEq

inductive ResponseDecision where
  | deliver (responseHeaders : Headers)
  | reject (msg : String)
  | follow (next : CallState)
deriving Repr, DecidableEq

/-- The body/method rewriting of a followed redirect hop (lines 179-194):
303, or 301/302 with a POST, downgrades to GET with an empty body and no
Content-Length; otherwise a streamed (unknown-length) body rejects, and
anything else re-extracts the original body input for the next hop. -/
def rewriteForRedirect (entropy : List Nat) (status : Nat) (st : CallState) :
    Except String (String × BodyState × Headers) :=
  if status = 303 ∨ ((status = 301 ∨ status = 302) ∧ st.method = "POST") then
    .ok ("GET", extractBody entropy none, st.requestHeaders.del "Content-Length")
  else if st.requestBody.body ≠ none ∧ st.requestBody.contentLength = none then
    .error "Cannot follow redirect with a streamed body"
  else
    .ok (st.method, extractBody entropy st.originalBody, st.requestHeaders)

/-- The response-status branch of `_call` (lines 152-202): what happens to
a response with the given status and headers under a redirect mode.
`resolveLoc` stands for `new URL(location, requestUrl)`. -/
def handleStatus (redirect : String) (resolveLoc : String → LocURL)
    (entropy : List Nat) (st : CallState) (status : Nat) (hs : Headers) :
    ResponseDecision :=
  if isRedirectCode status then
    let locationURL := (hs.get "Location").map resolveLoc
    if redirect = "error" then
      .reject "URI requested responds with a redirect, redirect mode is set to error"
    else
      match locationURL with
      | some loc =>
        if redirect = "manual" then .deliver (hs.set "Location" loc.href)
        else if redirect = "follow" then
          if st.redirects + 1 > MAX_REDIRECTS then
            .reject ("maximum redirect reached at: " ++ st.requestUrl)
          else if loc.protocol ≠ "http:" ∧ loc.protocol ≠ "https:" then
            .reject "URL scheme must be a HTTP(S) scheme"
          else
            match rewriteForRedirect entropy status st with
            | .error msg => .reject msg
            | .ok (m, b, h) =>
              .follow
                { method := m, requestBody := b, requestHeaders := h,
                  originalBody := st.originalBody,
                  redirects := st.redirects + 1, requestUrl := loc.href }
        else .deliver hs
      | none => .deliver hs
  else .deliver hs

/-! ## Claims C3, C4, C6: the redirect state machine -/

theorem Headers.hasName_del_self (h : Headers) (name : String) :
    (h.del name).hasName name = false := by
  unfold Headers.hasName
  rw [Headers.get_del, if_pos rfl]
  rfl

theorem hasName_cl_setAccept (h : Headers) :
    (setAcceptHeader h).hasName "Content-Length" =
      h.hasName "Content-Length" := by
  unfold setAcceptHeader
  by_cases ha : h.hasName "Accept"
  · rw [if_pos ha]
  · rw [if_neg ha]
    unfold Headers.hasName
    rw [Headers.get_set, if_neg (by decide)]

/-- After the GET downgrade the finalization pass adds no Content-Length:
the body is null and the method is GET, so neither length branch fires. -/
theorem finalize_downgraded_no_content_length (entropy : List Nat)
    (h : Headers) :
    (finalizeRequestHeaders (h.del "Content-Length") (extractBody entropy none)
      "GET").hasName "Content-Length" = false := by
  have hred : finalizeRequestHeaders (h.del "Content-Length")
      (extractBody entropy none) "GET" =
      setAcceptHeader (h.del "Content-Length") := rfl
  rw [hred, hasName_cl_setAccept, Headers.hasName_del_self]

/-- C3 — on a followed hop with status 303 (any method) or 301/302 with a
POST, the next request is a GET with an empty body and no Content-Length
header (the finalization pass adds none back); for 307 and 308 the method
is never downgraded (the hop either rejects on a streamed body or keeps
the method). -/
theorem redirect_get_downgrade (entropy : List Nat) (status : Nat)
    (st : CallState) :
    ((status = 303 ∨ ((status = 301 ∨ status = 302) ∧ st.method = "POST")) →
      rewriteForRedirect entropy status st =
        Except.ok ("GET", extractBody entropy none,
          st.requestHeaders.del "Content-Length") ∧
      (extractBody entropy none).body = none ∧
      (finalizeRequestHeaders (st.requestHeaders.del "Content-Length")
        (extractBody entropy none) "GET").hasName "Content-Length" = false) ∧
    ((status = 307 ∨ status = 308) →
      rewriteForRedirect entropy status st =
        Except.error "Cannot follow redirect with a streamed body" ∨
      rewriteForRedirect entropy status st =
        Except.ok (st.method, extractBody entropy st.originalBody,
          st.requestHeaders)) := by
  constructor
  · intro hdown
    refine ⟨?_, rfl, finalize_downgraded_no_content_length entropy _⟩
    unfold rewriteForRedirect
    rw [if_pos hdown]
  · intro h78
    have hnd : ¬ (status = 303 ∨
        ((status = 301 ∨ status = 302) ∧ st.method = "POST")) := by
      rcases h78 with h | h <;> subst h <;> simp
    unfold rewriteForRedirect
    rw [if_neg hnd]
    by_cases hstream :
        st.requestBody.body ≠ none ∧ st.requestBody.contentLength = none
    · left
      rw [if_pos hstream]
    · right
      rw [if_neg hstream]

/-- C6 — on a followed hop that does not downgrade to GET, a non-null body
of unknown content length (a streamed body) rejects the redirect with
`Cannot follow redirect with a streamed body`; otherwise the body is
re-extracted from the original body input for the next hop. -/
theorem redirect_streamed_body (entropy : List Nat) (status : Nat)
    (st : CallState)
    (hnd : ¬ (status = 303 ∨
      ((status = 301 ∨ status = 302) ∧ st.method = "POST"))) :
    ((st.requestBody.body ≠ none ∧ st.requestBody.contentLength = none) →
      rewriteForRedirect entropy status st =
        Except.error "Cannot follow redirect with a streamed body") ∧
    (¬ (st.requestBody.body ≠ none ∧ st.requestBody.contentLength = none) →
      rewriteForRedirect entropy status st =
        Except.ok (st.method, extractBody entropy st.originalBody,
          st.requestHeaders)) := by
  unfold rewriteForRedirect
  rw [if_neg hnd]
  constructor
  · intro hstream
    rw [if_pos hstream]
  · intro hnot
    rw [if_neg hnot]

def c6State : CallState :=
  { method := "POST",
    requestBody := extractBody [] (some (.readable [[1, 2, 3]])),
    requestHeaders := Headers.empty,
    originalBody := some (.readable [[1, 2, 3]]),
    redirects := 0, requestUrl := "http://example.com/" }

/-- C6 witness: a 307 hop carrying a streamed (unknown-length) Readable
body rejects. -/
theorem redirect_streamed_body_witness :
    ¬ ((307 : Nat) = 303 ∨
      (((307 : Nat) = 301 ∨ (307 : Nat) = 302) ∧ c6State.method = "POST")) ∧
    rewriteForRedirect [] 307 c6State =
      Except.error "Cannot follow redirect with a streamed body" := by
  have hnd : ¬ ((307 : Nat) = 303 ∨
      (((307 : Nat) = 301 ∨ (307 : Nat) = 302) ∧ c6State.method = "POST")) := by
    simp [c6State]
  exact ⟨hnd, (redirect_streamed_body [] 307 c6State hnd).1 (by decide)⟩

def c4State : CallState :=
  { method := "GET", requestBody := extractBody [] none,
    requestHeaders := Headers.empty, originalBody := none,
    redirects := 0, requestUrl := "http://example.com/" }

def c4Resolve : String → LocURL :=
  fun s => { protocol := "http:", href := s }

/-- C4 counterexample — the claim promises a 3xx without Location is
delivered verbatim under the `error` redirect mode too, but the code
checks the mode before the Location header: a 301 with no Location headers
under `error` mode is rejected, not delivered. -/
theorem error_mode_rejects_without_location :
    Headers.empty.get "Location" = none ∧
    handleStatus "error" c4Resolve [] c4State 301 Headers.empty =
      ResponseDecision.reject
        "URI requested responds with a redirect, redirect mode is set to error" := by
  exact ⟨rfl, rfl⟩

/-- C4 amended — a response with a redirect status and no Location header
(`hs`) is delivered verbatim as an ordinary response under the `follow`
and `manual` modes; under the `error` mode every redirect-status response
(`hs2`, arbitrary headers) is rejected, Location header or not. -/
theorem redirect_no_location (rl : String → LocURL) (entropy : List Nat)
    (st : CallState) (status : Nat) (hs hs2 : Headers)
    (hredir : isRedirectCode status = true)
    (hloc : hs.get "Location" = none) :
    handleStatus "follow" rl entropy st status hs =
      ResponseDecision.deliver hs ∧
    handleStatus "manual" rl entropy st status hs =
      ResponseDecision.deliver hs ∧
    handleStatus "error" rl entropy st status hs2 =
      ResponseDecision.reject
        "URI requested responds with a redirect, redirect mode is set to error" := by
  refine ⟨?_, ?_, ?_⟩
  · simp [handleStatus, hredir, hloc]
  · simp [handleStatus, hredir, hloc]
  · simp [handleStatus, hredir]

/-- C4 witness: a 301 under all three modes — follow and manual with empty
headers (no Location), error with a Location header present. -/
theorem redirect_no_location_witness :
    isRedirectCode 301 = true ∧
    Headers.empty.get "Location" = none ∧
    (Headers.ofList [("Location", "http://example.com/next")]).hasName
      "Location" = true ∧
    handleStatus "follow" c4Resolve [] c4State 301 Headers.empty =
      ResponseDecision.deliver Headers.empty ∧
    handleStatus "manual" c4Resolve [] c4State 301 Headers.empty =
      ResponseDecision.deliver Headers.empty ∧
    handleStatus "error" c4Resolve [] c4State 301
        (Headers.ofList [("Location", "http://example.com/next")]) =
      ResponseDecision.reject
        "URI requested responds with a redirect, redirect mode is set to error" := by
  have h := redirect_no_location c4Resolve [] c4State 301 Headers.empty
    (Headers.ofList [("Location", "http://example.com/next")]) (by decide) rfl
  exact ⟨by decide, rfl, by decide, h.1, h.2.1, h.2.2⟩

/-! ## Content decoder: deflate autodetection (encoding.ts, `InflateStream`) -/

inductive InflateVariant where
  | zlib
  | raw
deriving Repr, DecidableEq

structure InflateState where
  variant : Option InflateVariant
  fed : List (List Nat)
deriving Repr, DecidableEq

/-- One `_transform` call of `InflateStream`: before the inner decoder
exists, an empty chunk only completes its callback; the first non-empty
chunk picks `createInflate` when its first byte has low nibble 8 and
`createInflateRaw` otherwise, then chunks are written through. -/
def inflateTransform (st : InflateState) (chunk : List Nat) : InflateState :=
  match st.variant with
  | none =>
    match chunk with
    | [] => st
    | b :: _ =>
      { variant :=
          some (if b &&& 15 = 8 then InflateVariant.zlib else InflateVariant.raw),
        fed := st.fed ++ [chunk] }
  | some _ => { st with fed := st.fed ++ [chunk] }

def inflateRun (chunks : List (List Nat)) : InflateState :=
  chunks.foldl inflateTransform { variant := none, fed := [] }

theorem inflate_foldl_empties (pre : List (List Nat)) (st : InflateState)
    (hv : st.variant = none) (hpre : ∀ c ∈ pre, c = []) :
    pre.foldl inflateTransform st = st := by
  induction pre with
  | nil => rfl
  | cons c rest ih =>
    have hc : c = [] := hpre c (by simp)
    have hstep : inflateTransform st c = st := by
      unfold inflateTransform
      rw [hv, hc]
    rw [List.foldl_cons, hstep]
    exact ih (fun x hx => hpre x (by simp [hx]))

theorem inflate_variant_sticky (chunks : List (List Nat)) (st : InflateState)
    (v : InflateVariant) (hv : st.variant = some v) :
    (chunks.foldl inflateTransform st).variant = some v := by
  induction chunks generalizing st with
  | nil => exact hv
  | cons c rest ih =>
    rw [List.foldl_cons]
    apply ih
    unfold inflateTransform
    rw [hv]

/-- C7 — the deflate/x-deflate variant is committed on the first byte `b`
of the first non-empty chunk: low nibble 8 picks the zlib-wrapped decoder,
anything else the raw decoder; empty chunks arriving before that commit
nothing. -/
theorem inflate_variant_first_nonempty_byte (pre : List (List Nat)) (b : Nat)
    (rest : List Nat) (post : List (List Nat)) (hpre : ∀ c ∈ pre, c = []) :
    (inflateRun pre).variant = none ∧
    (inflateRun (pre ++ (b :: rest) :: post)).variant =
      some (if b &&& 15 = 8 then InflateVariant.zlib else InflateVariant.raw) := by
  constructor
  · unfold inflateRun
    rw [inflate_foldl_empties pre _ rfl hpre]
  · unfold inflateRun
    rw [List.foldl_append, inflate_foldl_empties pre _ rfl hpre,
      List.foldl_cons]
    exact inflate_variant_sticky post _ _ rfl

/-- C7 witness: two empty chunks, then a chunk starting with byte 0x78
(low nibble 8), commits the zlib-wrapped variant. -/
theorem inflate_variant_first_nonempty_byte_witness :
    (∀ c ∈ ([[], []] : List (List Nat)), c = []) ∧
    (inflateRun [[], []]).variant = none ∧
    (inflateRun ([[], []] ++ (120 :: [156]) :: [[1, 2]])).variant =
      some InflateVariant.zlib := by
  have h := inflate_variant_first_nonempty_byte [[], []] 120 [156] [[1, 2]]
    (by decide)
  refine ⟨by decide, h.1, ?_⟩
  rw [h.2]
  decide

/-! ## Claim C5: method validation -/

/-- C5 counterexample — the claim rejects every method whose canonical
uppercase form is CONNECT/TRACE/TRACK, but the switch compares before
uppercasing: the lowercase spelling `connect` is accepted and sent as
`CONNECT`. -/
theorem methodToHttpOption_lowercase_connect_accepted :
    methodToHttpOption (some "connect") = Except.ok "CONNECT" ∧
    jsToUpper "connect" = "CONNECT" := by
  constructor
  · rfl
  · rfl

/-- C5 amended — only the exact strings `CONNECT`, `TRACE`, `TRACK` are
rejected with the unsupported-method TypeError; every other supplied method
(lowercase spellings of those included) is sent uppercased, and an absent
or empty method defaults to `GET`. -/
theorem methodToHttpOption_spec (m : String) :
    methodToHttpOption none = Except.ok "GET" ∧
    methodToHttpOption (some "") = Except.ok "GET" ∧
    ((m = "CONNECT" ∨ m = "TRACE" ∨ m = "TRACK") →
      methodToHttpOption (some m) =
        Except.error ("Failed to construct 'Request': '" ++ m ++
          "' HTTP method is unsupported.")) ∧
    (¬ (m = "CONNECT" ∨ m = "TRACE" ∨ m = "TRACK") → m ≠ "" →
      methodToHttpOption (some m) = Except.ok (jsToUpper m)) := by
  refine ⟨rfl, rfl, ?_, ?_⟩
  · intro h
    show (if m = "CONNECT" ∨ m = "TRACE" ∨ m = "TRACK" then
        Except.error ("Failed to construct 'Request': '" ++ m ++
          "' HTTP method is unsupported.")
      else if m = "" then Except.ok "GET" else Except.ok (jsToUpper m)) = _
    rw [if_pos h]
  · intro h hne
    show (if m = "CONNECT" ∨ m = "TRACE" ∨ m = "TRACK" then
        Except.error ("Failed to construct 'Request': '" ++ m ++
          "' HTTP method is unsupported.")
      else if m = "" then Except.ok "GET" else Except.ok (jsToUpper m)) = _
    rw [if_neg h, if_neg hne]

/-! ## Claim C1: Request fields versus init fields -/

def c1Request : RequestObj :=
  { url := "http://example.com/", body := some (.str "a=1"), signal := none,
    redirect := "follow", method := "POST", headers := [("x-a", "1")] }

def c1Init : RequestInitObj :=
  { method := some "PUT", headers := none, body := some (.str "b=2"),
    signal := some ⟨7⟩, redirect := some "manual" }

/-- C1 counterexample — with a Request input whose method is POST and an
init whose method is PUT (body, signal and redirect likewise differing),
every one of method, body, signal and redirect is taken from the Request;
the init fields, though present, do not override. -/
theorem resolveFetchInit_request_ignores_init :
    (resolveFetchInit (.request c1Request) (some c1Init)).method =
      Except.ok "POST" ∧
    (resolveFetchInit (.request c1Request) (some c1Init)).method ≠
      Except.ok "PUT" ∧
    (resolveFetchInit (.request c1Request) (some c1Init)).initBody ≠
      c1Init.body ∧
    (resolveFetchInit (.request c1Request) (some c1Init)).signal ≠
      c1Init.signal ∧
    (resolveFetchInit (.request c1Request) (some c1Init)).redirect ≠
      Except.ok "manual" := by
  refine ⟨rfl, ?_, by decide, by decide, ?_⟩
  · intro h
    exact absurd (Except.ok.inj h) (by decide)
  · intro h
    exact absurd (Except.ok.inj h) (by decide)

/-- C1 amended — when the input is a Request, `url`, `body`, `signal`,
`redirect` and `method` always come from the Request and the corresponding
init fields are ignored; only `headers` is overridable: init headers, when
present, replace the Request's headers wholesale (so on key conflicts the
init headers win), and when absent the Request's headers are used. -/
theorem resolveFetchInit_request_spec (r : RequestObj) (i : RequestInitObj) :
    resolveFetchInit (.request r) (some i) =
      { initUrl := r.url, initBody := r.body, signal := r.signal,
        redirect := toRedirectOption (some r.redirect),
        method := methodToHttpOption (some r.method),
        headersInit := some (i.headers.getD r.headers) } ∧
    resolveFetchInit (.request r) none =
      { initUrl := r.url, initBody := r.body, signal := r.signal,
        redirect := toRedirectOption (some r.redirect),
        method := methodToHttpOption (some r.method),
        headersInit := some r.headers } := by
  constructor
  · cases hh : i.headers with
    | none => simp [resolveFetchInit, hh, Option.getD]
    | some hs => simp [resolveFetchInit, hh, Option.getD]
  · rfl

/-! ## Claim C2: Content-Type finalization -/

/-- C2 evaluation at the failing input — a caller-supplied
`Content-Type: application/json` together with a string body: the code
overwrites the caller's header with the body's synthesized
`text/plain;charset=UTF-8` instead of preserving it. -/
theorem contentType_overwrites_caller_header :
    (finalizeRequestHeaders
        (Headers.ofList [("Content-Type", "application/json")])
        (extractBody [] (some (.str "a=1"))) "POST").get "Content-Type" =
      some "text/plain;charset=UTF-8" ∧
    (Headers.ofList [("Content-Type", "application/json")]).get
      "Content-Type" = some "application/json" := by
  constructor
  · rfl
  · rfl

end FetchNodeShim
